import Mathlib

/-!
Verification of the rate-limited message dispatch engine of the Aether
repository (VaxityAutoTyper).  The Python classes `DiscordRateLimiter`,
`DiscordAutoSender` (its `send_messages` loop, queue pause/cancel and
scheduling methods) and the free function `send_message_advanced` are
shallowly embedded below; timestamps and delays are modelled as rationals,
the external collaborators (window focus, keyboard) as oracles.
-/

/-- State of `DiscordRateLimiter` (src/main.py, src/heal_md_enhanced_bridge.py,
field for field as in `__init__`). -/
structure DiscordRateLimiter where
  message_history : List ℚ
  burst_threshold : ℕ
  burst_window : ℚ
  rate_limit : ℚ
  exponential_delay : ℚ
  max_delay : ℚ
  queue_size : ℕ
  total_processed : ℕ
  rate_limit_hits : ℕ
  last_burst_time : ℚ
deriving Repr, DecidableEq

/-- The initial state built by `DiscordRateLimiter.__init__`:
`burst_threshold = 5`, `burst_window = 10`, `rate_limit = 0.5`,
`exponential_delay = 1.0`, `max_delay = 30.0`, counters at zero. -/
def DiscordRateLimiter.init : DiscordRateLimiter :=
  { message_history := []
    burst_threshold := 5
    burst_window := 10
    rate_limit := 1/2
    exponential_delay := 1
    max_delay := 30
    queue_size := 0
    total_processed := 0
    rate_limit_hits := 0
    last_burst_time := 0 }

/-- `DiscordRateLimiter.can_send_message`: prunes `message_history` to entries
with `now - t < burst_window`, refuses when the pruned length reaches
`burst_threshold` (also recording `last_burst_time`), refuses when the last
pruned entry is within `rate_limit` of `now`, and otherwise allows the send.
Returns the mutated state together with the boolean answer. -/
def can_send_message (now : ℚ) (s : DiscordRateLimiter) :
    DiscordRateLimiter × Bool :=
  let history := s.message_history.filter (fun t => now - t < s.burst_window)
  if s.burst_threshold ≤ history.length then
    ({ s with message_history := history, last_burst_time := now }, false)
  else
    match history.getLast? with
    | some t =>
        if now - t < s.rate_limit then
          ({ s with message_history := history }, false)
        else
          ({ s with message_history := history }, true)
    | none => ({ s with message_history := history }, true)

/-- `DiscordRateLimiter.register_message_sent`: appends `now` to the history,
increments `total_processed` and decreases the backoff delay multiplicatively
(`max(0.5, delay * 0.9)`). -/
def register_message_sent (now : ℚ) (s : DiscordRateLimiter) :
    DiscordRateLimiter :=
  { s with
    message_history := s.message_history ++ [now]
    total_processed := s.total_processed + 1
    exponential_delay := max (1/2) (s.exponential_delay * (9/10)) }

/-- `DiscordRateLimiter.register_rate_limit_hit`: increments `rate_limit_hits`
and doubles the backoff delay, clamped by `max_delay`. -/
def register_rate_limit_hit (s : DiscordRateLimiter) : DiscordRateLimiter :=
  { s with
    rate_limit_hits := s.rate_limit_hits + 1
    exponential_delay := min s.max_delay (s.exponential_delay * 2) }

/-- `DiscordRateLimiter.get_recommended_delay`: `exponential_delay` when
`can_send_message` refuses, otherwise `max(rate_limit, 0.1)`; it threads the
state mutated by the embedded `can_send_message` call. -/
def get_recommended_delay (now : ℚ) (s : DiscordRateLimiter) :
    DiscordRateLimiter × ℚ :=
  let r := can_send_message now s
  if r.2 then (r.1, max r.1.rate_limit (1/10)) else (r.1, r.1.exponential_delay)

/-- The dictionary returned by `DiscordRateLimiter.get_queue_status`. -/
structure QueueStatus where
  can_send : Bool
  recent_messages : ℕ
  burst_threshold : ℕ
  recommended_delay : ℚ
  total_processed : ℕ
  rate_limit_hits : ℕ
  exponential_delay : ℚ
deriving Repr, DecidableEq

/-- `DiscordRateLimiter.get_queue_status`: counts the recent messages on the
unpruned history, then evaluates `can_send_message` and
`get_recommended_delay` in the order of the Python dict literal, threading
their state mutations, and reads the counters off the resulting state. -/
def get_queue_status (now : ℚ) (s : DiscordRateLimiter) :
    DiscordRateLimiter × QueueStatus :=
  let recent := (s.message_history.filter (fun t => now - t < s.burst_window)).length
  let r1 := can_send_message now s
  let r2 := get_recommended_delay now r1.1
  (r2.1,
   { can_send := r1.2
     recent_messages := recent
     burst_threshold := s.burst_threshold
     recommended_delay := r2.2
     total_processed := r2.1.total_processed
     rate_limit_hits := r2.1.rate_limit_hits
     exponential_delay := r2.1.exponential_delay })

/-- C1: `can_send_message` returns `false` exactly when, after pruning the
history to entries within `burst_window` of `now`, the pruned length reaches
`burst_threshold`, or the pruned history is non-empty and its last entry is
within `rate_limit` of `now`. -/
theorem C1_can_send_message_iff (s : DiscordRateLimiter) (now : ℚ) :
    (can_send_message now s).2 = false ↔
      (s.burst_threshold ≤
          (s.message_history.filter (fun t => now - t < s.burst_window)).length
        ∨ ((s.message_history.filter (fun t => now - t < s.burst_window)) ≠ []
            ∧ now - (s.message_history.filter
                (fun t => now - t < s.burst_window)).getLastD 0 < s.rate_limit)) := by
  unfold can_send_message
  set P := s.message_history.filter (fun t => now - t < s.burst_window) with hP
  by_cases hlen : s.burst_threshold ≤ P.length
  · simp [hlen]
  · cases hlast : P.getLast? with
    | none =>
        have hnil : P = [] := List.getLast?_eq_none_iff.mp hlast
        have h0 : ¬ s.burst_threshold = 0 := by
          intro h
          exact hlen (by simp [h])
        simp [hlen, hlast, hnil, h0]
    | some t =>
        have hne : P ≠ [] := by
          intro h
          rw [h] at hlast
          simp at hlast
        have hgetD : P.getLastD 0 = t := by
          rw [List.getLastD_eq_getLast?, hlast]
          rfl
        by_cases hrate : now - t < s.rate_limit
        · simp [hlen, hlast, hrate, hne, hgetD]
        · simp [hlen, hlast, hrate, hne, hgetD]

/-- One call on the rate limiter: a `can_send_message` query at time `now`, a
`register_message_sent` at time `now`, or a `register_rate_limit_hit`. -/
inductive RLOp where
  | canSend (now : ℚ)
  | sent (now : ℚ)
  | hit
deriving Repr, DecidableEq

/-- Applies one rate-limiter call to a state (the boolean answer of a
`can_send_message` query is discarded, its state mutation kept). -/
def applyRLOp (s : DiscordRateLimiter) : RLOp → DiscordRateLimiter
  | RLOp.canSend now => (can_send_message now s).1
  | RLOp.sent now => register_message_sent now s
  | RLOp.hit => register_rate_limit_hit s

/-- Applies a sequence of rate-limiter calls, oldest first. -/
def applyRLOps (ops : List RLOp) (s : DiscordRateLimiter) : DiscordRateLimiter :=
  ops.foldl applyRLOp s

/-- Fields of the rate limiter that no call ever rewrites: the configuration
constants.  `can_send_message` touches only `message_history` and
`last_burst_time`; the two register calls touch `message_history`,
`exponential_delay` and the counters. -/
theorem applyRLOp_config (s : DiscordRateLimiter) (op : RLOp) :
    (applyRLOp s op).rate_limit = s.rate_limit ∧
      (applyRLOp s op).max_delay = s.max_delay ∧
      (applyRLOp s op).burst_threshold = s.burst_threshold ∧
      (applyRLOp s op).burst_window = s.burst_window := by
  cases op with
  | canSend now =>
      unfold applyRLOp can_send_message
      set P := s.message_history.filter (fun t => now - t < s.burst_window)
      by_cases hlen : s.burst_threshold ≤ P.length
      · simp [hlen]
      · cases hlast : P.getLast? with
        | none => simp [hlen, hlast]
        | some t =>
            by_cases hrate : now - t < s.rate_limit
            · simp [hlen, hlast, hrate]
            · simp [hlen, hlast, hrate]
  | sent now => simp [applyRLOp, register_message_sent]
  | hit => simp [applyRLOp, register_rate_limit_hit]

/-- A single call preserves the backoff-delay window `[1/2, max_delay]`,
provided `1 ≤ max_delay` (the default is `30`). -/
theorem applyRLOp_delay_bounds (s : DiscordRateLimiter) (op : RLOp)
    (hmax : (1:ℚ) ≤ s.max_delay)
    (hlo : (1/2:ℚ) ≤ s.exponential_delay)
    (hhi : s.exponential_delay ≤ s.max_delay) :
    (1/2:ℚ) ≤ (applyRLOp s op).exponential_delay ∧
      (applyRLOp s op).exponential_delay ≤ (applyRLOp s op).max_delay := by
  have hmax' : (applyRLOp s op).max_delay = s.max_delay := (applyRLOp_config s op).2.1
  rw [hmax']
  cases op with
  | canSend now =>
      unfold applyRLOp can_send_message
      set P := s.message_history.filter (fun t => now - t < s.burst_window)
      by_cases hlen : s.burst_threshold ≤ P.length
      · simpa [hlen] using And.intro hlo hhi
      · cases hlast : P.getLast? with
        | none => simpa [hlen, hlast] using And.intro hlo hhi
        | some t =>
            by_cases hrate : now - t < s.rate_limit
            · simpa [hlen, hlast, hrate] using And.intro hlo hhi
            · simpa [hlen, hlast, hrate] using And.intro hlo hhi
  | sent now =>
      constructor
      · simp [applyRLOp, register_message_sent]
      · simp only [applyRLOp, register_message_sent]
        have h1 : s.exponential_delay * (9/10) ≤ s.max_delay := by
          nlinarith
        have h2 : (1/2:ℚ) ≤ s.max_delay := by linarith
        exact max_le h2 h1
  | hit =>
      constructor
      · simp only [applyRLOp, register_rate_limit_hit]
        have h1 : (1/2:ℚ) ≤ s.exponential_delay * 2 := by linarith
        have h2 : (1/2:ℚ) ≤ s.max_delay := by linarith
        exact le_min h2 h1
      · simp [applyRLOp, register_rate_limit_hit]

/-- Every state reached from `DiscordRateLimiter.init` keeps the default
configuration constants and a backoff delay inside `[1/2, 30]`. -/
theorem applyRLOps_invariant (ops : List RLOp) :
    (applyRLOps ops DiscordRateLimiter.init).rate_limit = 1/2 ∧
      (applyRLOps ops DiscordRateLimiter.init).max_delay = 30 ∧
      (1/2:ℚ) ≤ (applyRLOps ops DiscordRateLimiter.init).exponential_delay ∧
      (applyRLOps ops DiscordRateLimiter.init).exponential_delay ≤ 30 := by
  suffices h : ∀ s : DiscordRateLimiter,
      s.rate_limit = 1/2 → s.max_delay = 30 →
      (1/2:ℚ) ≤ s.exponential_delay → s.exponential_delay ≤ 30 →
      (applyRLOps ops s).rate_limit = 1/2 ∧
        (applyRLOps ops s).max_delay = 30 ∧
        (1/2:ℚ) ≤ (applyRLOps ops s).exponential_delay ∧
        (applyRLOps ops s).exponential_delay ≤ 30 by
    exact h DiscordRateLimiter.init rfl rfl (by norm_num [DiscordRateLimiter.init])
      (by norm_num [DiscordRateLimiter.init])
  induction ops with
  | nil =>
      intro s h1 h2 h3 h4
      exact ⟨h1, h2, h3, h4⟩
  | cons op rest ih =>
      intro s h1 h2 h3 h4
      have hcfg := applyRLOp_config s op
      have hbd := applyRLOp_delay_bounds s op (by rw [h2]; norm_num) h3 (h4.trans_eq h2.symm)
      exact ih (applyRLOp s op) (hcfg.1.trans h1) (hcfg.2.1.trans h2) hbd.1
        (hbd.2.trans_eq (hcfg.2.1.trans h2))

/-- `can_send_message` rewrites only `message_history` and `last_burst_time`:
the backoff delay, both counters and `rate_limit` come out unchanged. -/
theorem can_send_message_state (now : ℚ) (s : DiscordRateLimiter) :
    (can_send_message now s).1.exponential_delay = s.exponential_delay ∧
      (can_send_message now s).1.total_processed = s.total_processed ∧
      (can_send_message now s).1.rate_limit_hits = s.rate_limit_hits ∧
      (can_send_message now s).1.rate_limit = s.rate_limit := by
  unfold can_send_message
  set P := s.message_history.filter (fun t => now - t < s.burst_window)
  by_cases hlen : s.burst_threshold ≤ P.length
  · simp [hlen]
  · cases hlast : P.getLast? with
    | none => simp [hlen, hlast]
    | some t =>
        by_cases hrate : now - t < s.rate_limit
        · simp [hlen, hlast, hrate]
        · simp [hlen, hlast, hrate]

/-- The state returned by `get_recommended_delay` is exactly the state mutated
by its embedded `can_send_message` call. -/
theorem get_recommended_delay_state (now : ℚ) (s : DiscordRateLimiter) :
    (get_recommended_delay now s).1 = (can_send_message now s).1 := by
  unfold get_recommended_delay
  dsimp only
  split
  · rfl
  · rfl

/-- C2: from the initial state, under every sequence of rate-limiter calls the
backoff delay stays within `[minInterval, maxBackoff] = [1/2, 30]`; a hit is
the only call that doubles it (clamped above by `max_delay`), a successful
send the only call that multiplies it by `0.9` (clamped below by `1/2`), and
a `can_send_message` query leaves it unchanged. -/
theorem C2_backoff_delay_bounds :
    (∀ ops : List RLOp,
        (1/2:ℚ) ≤ (applyRLOps ops DiscordRateLimiter.init).exponential_delay ∧
          (applyRLOps ops DiscordRateLimiter.init).exponential_delay ≤ 30)
    ∧ (∀ s : DiscordRateLimiter,
        (register_rate_limit_hit s).exponential_delay
          = min s.max_delay (s.exponential_delay * 2))
    ∧ (∀ (now : ℚ) (s : DiscordRateLimiter),
        (register_message_sent now s).exponential_delay
          = max (1/2) (s.exponential_delay * (9/10)))
    ∧ (∀ (now : ℚ) (s : DiscordRateLimiter),
        ((can_send_message now s).1).exponential_delay = s.exponential_delay) := by
  refine ⟨?_, ?_, ?_, ?_⟩
  · intro ops
    have h := applyRLOps_invariant ops
    exact ⟨h.2.2.1, h.2.2.2⟩
  · intro s
    rfl
  · intro now s
    rfl
  · intro now s
    exact (can_send_message_state now s).1

/-- C9: `get_queue_status` never mutates `total_processed` or
`rate_limit_hits`, even though it runs `can_send_message` (twice, through
`get_recommended_delay`) on the state it threads. -/
theorem C9_status_preserves_counters (now : ℚ) (s : DiscordRateLimiter) :
    ((get_queue_status now s).1).total_processed = s.total_processed ∧
      ((get_queue_status now s).1).rate_limit_hits = s.rate_limit_hits := by
  have h1 := can_send_message_state now s
  have h2 := can_send_message_state now (can_send_message now s).1
  have hq : (get_queue_status now s).1
      = (can_send_message now (can_send_message now s).1).1 := by
    unfold get_queue_status
    exact get_recommended_delay_state now (can_send_message now s).1
  rw [hq]
  exact ⟨h2.2.1.trans h1.2.1, h2.2.2.1.trans h1.2.2.1⟩

/-- C10: on every state reachable from the initial configuration,
`get_recommended_delay` returns a strictly positive value of at least `0.1`
(in fact at least `0.5`, so also after at least one call). -/
theorem C10_recommended_delay_positive (ops : List RLOp) (now : ℚ) :
    0 < (get_recommended_delay now (applyRLOps ops DiscordRateLimiter.init)).2
    ∧ (1/10:ℚ) ≤ (get_recommended_delay now (applyRLOps ops DiscordRateLimiter.init)).2
    ∧ (ops ≠ [] →
        (1/2:ℚ) ≤ (get_recommended_delay now (applyRLOps ops DiscordRateLimiter.init)).2) := by
  have hinv := applyRLOps_invariant ops
  set s := applyRLOps ops DiscordRateLimiter.init with hs
  have hcs := can_send_message_state now s
  have hval : (1/2:ℚ) ≤ (get_recommended_delay now s).2 := by
    unfold get_recommended_delay
    dsimp only
    split
    · rw [hcs.2.2.2, hinv.1]
      exact le_max_left _ _
    · rw [hcs.1]
      exact hinv.2.2.1
  refine ⟨by linarith, by linarith, fun _ => hval⟩

/-- Witness for C10 at the concrete one-call sequence `[hit]` and `now = 0`. -/
theorem C10_recommended_delay_positive_witness :
    0 < (get_recommended_delay 0 (applyRLOps [RLOp.hit] DiscordRateLimiter.init)).2
    ∧ (1/10:ℚ) ≤ (get_recommended_delay 0 (applyRLOps [RLOp.hit] DiscordRateLimiter.init)).2
    ∧ (1/2:ℚ) ≤ (get_recommended_delay 0 (applyRLOps [RLOp.hit] DiscordRateLimiter.init)).2 :=
  ⟨(C10_recommended_delay_positive [RLOp.hit] 0).1,
   (C10_recommended_delay_positive [RLOp.hit] 0).2.1,
   (C10_recommended_delay_positive [RLOp.hit] 0).2.2 (by simp)⟩

/-- Dispatch-side state of `DiscordAutoSender` (src/main.py): its rate
limiter, the `queue_paused` flag set by `pause_queue`/`resume_queue`, and the
`analytics_data` counters `sent` and `errors`.  The `is_sending` flag is
modelled as staying `True` for the duration of one `send_messages` run
(it is only flipped from other threads). -/
structure DiscordAutoSender where
  rate_limiter : DiscordRateLimiter
  queue_paused : Bool
  sent : ℕ
  errors : ℕ
deriving Repr, DecidableEq

/-- A fresh `DiscordAutoSender`: initial rate limiter, not paused, counters
at zero. -/
def DiscordAutoSender.init : DiscordAutoSender :=
  { rate_limiter := DiscordRateLimiter.init
    queue_paused := false
    sent := 0
    errors := 0 }

/-- `DiscordAutoSender.pause_queue`: sets the `queue_paused` flag (and a
status string, not modelled).  No other field is touched. -/
def pause_queue (s : DiscordAutoSender) : DiscordAutoSender :=
  { s with queue_paused := true }

/-- `DiscordAutoSender.resume_queue`: clears the `queue_paused` flag. -/
def resume_queue (s : DiscordAutoSender) : DiscordAutoSender :=
  { s with queue_paused := false }

/-- `DiscordAutoSender.send_messages` (src/main.py lines 677-693): one `for`
iteration per pending message.  Each item carries the time at which its
iteration runs its checks.  When `can_send_message` allows it, the message is
dispatched (`sent` incremented, `register_message_sent`); otherwise `errors`
is incremented, `register_rate_limit_hit` runs, and the loop sleeps
`get_recommended_delay` (whose state mutation is threaded) — and then moves
on to the **next** message.  Returns the final state and the list of
dispatched messages in dispatch order.  The body never reads
`queue_paused`. -/
def send_messages (items : List (ℕ × ℚ)) (s : DiscordAutoSender) :
    DiscordAutoSender × List ℕ :=
  match items with
  | [] => (s, [])
  | (msg, now) :: rest =>
      let r := can_send_message now s.rate_limiter
      if r.2 then
        let s1 : DiscordAutoSender :=
          { s with sent := s.sent + 1, rate_limiter := register_message_sent now r.1 }
        let out := send_messages rest s1
        (out.1, msg :: out.2)
      else
        let s1 : DiscordAutoSender :=
          { s with errors := s.errors + 1,
                   rate_limiter := (get_recommended_delay now (register_rate_limit_hit r.1)).1 }
        let out := send_messages rest s1
        (out.1, out.2)


/-- Counterexample to C3 as stated: two messages are pending; the second is
checked `0.3s` after the first was sent, `can_send_message` refuses, and the
loop does **not** re-check it — the `for` loop advances and the message is
skipped for good.  The run ends with only the first message dispatched and
one error counted, though the claim demands every pending message eventually
be handed to the transmitter. -/
theorem C3_counterexample_denied_message_skipped :
    (send_messages [(1, 0), (2, 3/10)] DiscordAutoSender.init).2 ≠ [1, 2]
    ∧ (send_messages [(1, 0), (2, 3/10)] DiscordAutoSender.init).2 = [1]
    ∧ (send_messages [(1, 0), (2, 3/10)] DiscordAutoSender.init).1.errors = 1 := by
  norm_num [send_messages, can_send_message, register_message_sent, register_rate_limit_hit,
    get_recommended_delay, DiscordAutoSender.init, DiscordRateLimiter.init]

/-- C3 amended: each pending message is checked exactly once; a message the
rate limiter denies is skipped (counted in `errors` after a
`register_rate_limit_hit` and a sleep), not re-checked, so the dispatched
messages form a subsequence of the pending ones, and every pending message is
either dispatched or counted as an error. -/
theorem C3_denied_messages_are_skipped (items : List (ℕ × ℚ)) (s : DiscordAutoSender) :
    (send_messages items s).2.Sublist (items.map Prod.fst)
    ∧ (send_messages items s).2.length + (send_messages items s).1.errors
        = items.length + s.errors
    ∧ (send_messages items s).1.sent = s.sent + (send_messages items s).2.length := by
  induction items generalizing s with
  | nil => simp [send_messages]
  | cons item rest ih =>
      obtain ⟨msg, now⟩ := item
      by_cases hc : (can_send_message now s.rate_limiter).2
      · have h := ih { s with sent := s.sent + 1, rate_limiter := register_message_sent now (can_send_message now s.rate_limiter).1 }
        dsimp only at h
        simp only [send_messages, hc, if_true, List.map_cons, List.length_cons]
        exact ⟨List.Sublist.cons₂ msg h.1, by omega, by omega⟩
      · have h := ih { s with errors := s.errors + 1, rate_limiter := (get_recommended_delay now (register_rate_limit_hit (can_send_message now s.rate_limiter).1)).1 }
        dsimp only at h
        simp only [send_messages, hc, if_false, Bool.false_eq_true, List.map_cons, List.length_cons]
        exact ⟨List.Sublist.cons msg h.1, by omega, by omega⟩

/-- C4 is a code bug: `pause_queue` raises the `queue_paused` flag (reporting
"Queue paused."), yet `send_messages` never consults the flag, so with the
queue paused a pending message still leaves the queue and is dispatched. -/
theorem C4_code_bug_paused_queue_still_sends :
    (pause_queue DiscordAutoSender.init).queue_paused = true
    ∧ (send_messages [(1, 0)] (pause_queue DiscordAutoSender.init)).2 = [1]
    ∧ (send_messages [(1, 0)] (pause_queue DiscordAutoSender.init)).1.sent = 1 := by
  refine ⟨rfl, ?_⟩
  norm_num [send_messages, can_send_message, register_message_sent, pause_queue,
    DiscordAutoSender.init, DiscordRateLimiter.init]

/-- Scheduling-side state of `DiscordAutoSender`
(src/heal_md_enhanced_bridge.py): `scheduled_messages` is the bookkeeping
list of `(send_time, message)` pairs; `armed` models the daemon threads
started with `threading.Thread(target=self._wait_and_send,
args=(send_time, msg))`, each holding its own captured copy of the pair. -/
structure SchedulerState where
  scheduled_messages : List (ℚ × ℕ)
  armed : List (ℚ × ℕ)
deriving Repr, DecidableEq

/-- A scheduler with nothing scheduled and no running timer thread. -/
def SchedulerState.init : SchedulerState :=
  { scheduled_messages := [], armed := [] }

/-- A calendar instant as the day number and the second-of-day, matching the
`datetime.combine(now.date(), time_obj)` decomposition used by
`schedule_message_advanced`. -/
def absTime (day : ℤ) (sec : ℚ) : ℚ := 86400 * (day : ℚ) + sec

/-- The normalization step of `schedule_message_advanced`
(src/heal_md_enhanced_bridge.py lines 2044-2051): the requested time-of-day
`tSec` is combined with today's date; if the resulting instant is not after
`now` (`send_time <= now`, i.e. `tSec ≤ nowSec`), one day is added
(`send_time += timedelta(days=1)`). -/
def normalize_send_time (nowDay : ℤ) (nowSec tSec : ℚ) : ℤ × ℚ :=
  if tSec ≤ nowSec then (nowDay + 1, tSec) else (nowDay, tSec)

/-- `DiscordAutoSender.schedule_message_advanced`: normalizes the requested
fire time, appends `(send_time, msg)` to `scheduled_messages`, and starts a
`_wait_and_send` daemon thread carrying the same pair. -/
def schedule_message_advanced (nowDay : ℤ) (nowSec tSec : ℚ) (msg : ℕ)
    (s : SchedulerState) : SchedulerState :=
  let n := normalize_send_time nowDay nowSec tSec
  { scheduled_messages := s.scheduled_messages ++ [(absTime n.1 n.2, msg)]
    armed := s.armed ++ [(absTime n.1 n.2, msg)] }

/-- `DiscordAutoSender.cancel_queue` (src/heal_md_enhanced_bridge.py lines
2342-2348): clears `scheduled_messages`.  The started `_wait_and_send`
threads are untouched — nothing signals them. -/
def cancel_queue (s : SchedulerState) : SchedulerState :=
  { s with scheduled_messages := [] }

/-- `DiscordAutoSender._wait_and_send` (src/Working Versions/main - Copy.py
lines 657-662): the timer thread sleeps until `send_time`, then loads its
captured message and starts sending.  It consults no scheduler or
cancellation state, so the fire is never suppressed: the result is the
message it enqueues (`none` would mean a suppressed fire, which no code path
produces). -/
def wait_and_send (send_time : ℚ) (msg : ℕ) (s : SchedulerState) : Option ℕ :=
  some msg

/-- C5 is a code bug: scheduling message `7` for `t = 10` and cancelling the
queue before it fires leaves the armed timer thread running; at `t = 10` the
thread still dispatches message `7`, although `scheduled_messages` was
cleared. -/
theorem C5_code_bug_cancel_does_not_stop_timer :
    (cancel_queue (schedule_message_advanced 0 5 10 7 SchedulerState.init)).scheduled_messages = []
    ∧ (cancel_queue (schedule_message_advanced 0 5 10 7 SchedulerState.init)).armed
        = [(absTime 0 10, 7)]
    ∧ wait_and_send (absTime 0 10) 7
        (cancel_queue (schedule_message_advanced 0 5 10 7 SchedulerState.init)) = some 7 := by
  refine ⟨rfl, ?_, rfl⟩
  norm_num [cancel_queue, schedule_message_advanced, normalize_send_time, SchedulerState.init]

/-- C6: a schedule request whose time-of-day already passed today
(`tSec < nowSec`) is normalized to the same time-of-day on the next day, and
the stored fire time is strictly in the future (so `_wait_and_send`, which
sleeps while `now < send_time`, does not dispatch immediately). -/
theorem C6_past_schedule_normalized_to_next_day (nowDay : ℤ) (nowSec tSec : ℚ)
    (ht : 0 ≤ tSec) (hnow : nowSec < 86400) (hpast : tSec < nowSec) :
    normalize_send_time nowDay nowSec tSec = (nowDay + 1, tSec)
    ∧ absTime nowDay nowSec
        < absTime (normalize_send_time nowDay nowSec tSec).1
            (normalize_send_time nowDay nowSec tSec).2 := by
  have hle : tSec ≤ nowSec := le_of_lt hpast
  constructor
  · simp [normalize_send_time, hle]
  · simp only [normalize_send_time, hle, if_true, absTime]
    push_cast
    linarith

/-- Witness for C6: `now` is day 0 at second 100, the request is for second
50 of the day. -/
theorem C6_past_schedule_normalized_to_next_day_witness :
    normalize_send_time 0 100 50 = (1, 50)
    ∧ absTime 0 100 < absTime (normalize_send_time 0 100 50).1 (normalize_send_time 0 100 50).2 :=
  C6_past_schedule_normalized_to_next_day 0 100 50 (by norm_num) (by norm_num) (by norm_num)

/-- Outcome of one attempt of `send_message_advanced`, as decided by the
external collaborators: `focus_discord_window()` returned `False`
(`focusFail`), the keyboard/typing calls raised (`sendError`), or the whole
message was typed and submitted (`success`). -/
inductive AttemptOutcome where
  | focusFail
  | sendError
  | success
deriving Repr, DecidableEq

/-- Observable result of a `send_message_advanced` run: the returned boolean,
the number of loop iterations (attempts) executed, and, for each executed
failed attempt in order, whether the fixed `sleep(1)` inter-attempt pause ran
after it. -/
structure SendResult where
  success : Bool
  attempts : ℕ
  pauses : List Bool
deriving Repr, DecidableEq

/-- The retry loop of `send_message_advanced` (src/python/main/main.py lines
537-570, src/heal_md_enhanced_bridge.py lines 854-887), run from attempt
number `attempt` with the given number of attempts remaining.  The oracle
gives each attempt's outcome.  A `focusFail` hits `continue`: the next
attempt starts with **no** pause.  A `sendError` lands in the `except`
handler: the error is logged and `sleep(1)` runs before the next attempt.
`success` returns `True` at once. -/
def send_attempts (oracle : ℕ → AttemptOutcome) (attempt : ℕ) :
    ℕ → SendResult
  | 0 => { success := false, attempts := 0, pauses := [] }
  | n + 1 =>
      match oracle attempt with
      | AttemptOutcome.success =>
          { success := true, attempts := 1, pauses := [] }
      | AttemptOutcome.focusFail =>
          let r := send_attempts oracle (attempt + 1) n
          { success := r.success, attempts := r.attempts + 1, pauses := false :: r.pauses }
      | AttemptOutcome.sendError =>
          let r := send_attempts oracle (attempt + 1) n
          { success := r.success, attempts := r.attempts + 1, pauses := true :: r.pauses }

/-- `send_message_advanced`: `for attempt in range(1, max_attempts + 1)`. -/
def send_message_advanced (oracle : ℕ → AttemptOutcome) (max_attempts : ℕ) :
    SendResult :=
  send_attempts oracle 1 max_attempts

/-- The retry loop never runs more iterations than it has remaining. -/
theorem send_attempts_le (oracle : ℕ → AttemptOutcome) (n attempt : ℕ) :
    (send_attempts oracle attempt n).attempts ≤ n := by
  induction n generalizing attempt with
  | zero => simp [send_attempts]
  | succ n ih =>
      cases h : oracle attempt with
      | success => simp [send_attempts, h]
      | focusFail =>
          simp only [send_attempts, h]
          exact Nat.succ_le_succ (ih (attempt + 1))
      | sendError =>
          simp only [send_attempts, h]
          exact Nat.succ_le_succ (ih (attempt + 1))

/-- When no attempt succeeds, the retry loop exhausts all remaining attempts
and reports failure. -/
theorem send_attempts_all_fail (oracle : ℕ → AttemptOutcome)
    (hfail : ∀ i, oracle i ≠ AttemptOutcome.success) (n attempt : ℕ) :
    (send_attempts oracle attempt n).success = false
    ∧ (send_attempts oracle attempt n).attempts = n := by
  induction n generalizing attempt with
  | zero => simp [send_attempts]
  | succ n ih =>
      cases h : oracle attempt with
      | success => exact absurd h (hfail attempt)
      | focusFail =>
          have := ih (attempt + 1)
          simp only [send_attempts, h]
          exact ⟨this.1, by omega⟩
      | sendError =>
          have := ih (attempt + 1)
          simp only [send_attempts, h]
          exact ⟨this.1, by omega⟩

/-- The pause record of an executed failed attempt: the `i`-th executed
attempt (numbered from the starting attempt) is followed by the fixed pause
exactly when it failed with a raised error, never when the focus call merely
returned `False`. -/
theorem send_attempts_pauses (oracle : ℕ → AttemptOutcome) (n attempt : ℕ) :
    ∀ i : ℕ, i < (send_attempts oracle attempt n).pauses.length →
      ((send_attempts oracle attempt n).pauses.getD i false = true
        ↔ oracle (attempt + i) = AttemptOutcome.sendError) := by
  induction n generalizing attempt with
  | zero =>
      intro i h
      simp [send_attempts] at h
  | succ n ih =>
      intro i h
      cases hor : oracle attempt with
      | success =>
          simp [send_attempts, hor] at h
      | focusFail =>
          have hps : (send_attempts oracle attempt (n + 1)).pauses
              = false :: (send_attempts oracle (attempt + 1) n).pauses := by
            simp [send_attempts, hor]
          rw [hps] at h ⊢
          cases i with
          | zero => simp [hor]
          | succ i =>
              have harith : attempt + 1 + i = attempt + (i + 1) := by omega
              have := ih (attempt + 1) i (by simpa using h)
              rw [harith] at this
              simpa using this
      | sendError =>
          have hps : (send_attempts oracle attempt (n + 1)).pauses
              = true :: (send_attempts oracle (attempt + 1) n).pauses := by
            simp [send_attempts, hor]
          rw [hps] at h ⊢
          cases i with
          | zero => simp [hor]
          | succ i =>
              have harith : attempt + 1 + i = attempt + (i + 1) := by omega
              have := ih (attempt + 1) i (by simpa using h)
              rw [harith] at this
              simpa using this

/-- C7: when the collaborator fails on every attempt, `send_message_advanced`
performs exactly `max_attempts` attempts and returns failure, and in all
cases the attempt count never exceeds `max_attempts`. -/
theorem C7_retry_exhausts_max_attempts (oracle : ℕ → AttemptOutcome)
    (max_attempts : ℕ) :
    ((∀ i, oracle i ≠ AttemptOutcome.success) →
        (send_message_advanced oracle max_attempts).success = false
        ∧ (send_message_advanced oracle max_attempts).attempts = max_attempts)
    ∧ (send_message_advanced oracle max_attempts).attempts ≤ max_attempts := by
  constructor
  · intro hfail
    exact send_attempts_all_fail oracle hfail max_attempts 1
  · exact send_attempts_le oracle max_attempts 1

/-- Witness for C7: with `max_attempts = 3` and a collaborator raising on
every attempt, the result is `success = false` after exactly 3 attempts. -/
theorem C7_retry_exhausts_max_attempts_witness :
    ((send_message_advanced (fun _ => AttemptOutcome.sendError) 3).success = false
      ∧ (send_message_advanced (fun _ => AttemptOutcome.sendError) 3).attempts = 3)
    ∧ (send_message_advanced (fun _ => AttemptOutcome.sendError) 3).attempts ≤ 3 :=
  ⟨(C7_retry_exhausts_max_attempts (fun _ => AttemptOutcome.sendError) 3).1
      (fun _ h => AttemptOutcome.noConfusion h),
   (C7_retry_exhausts_max_attempts (fun _ => AttemptOutcome.sendError) 3).2⟩

/-- Counterexample to C8 as stated: when the focus call fails on all three
attempts, the run executes three attempts but **no** inter-attempt pause at
all — `continue` jumps straight to the next attempt, bypassing the
`sleep(1)` that only the `except` handler runs.  The claim that the function
proceeds to the next attempt only after a fixed pause is therefore false. -/
theorem C8_counterexample_focus_fail_no_pause :
    (send_message_advanced (fun _ => AttemptOutcome.focusFail) 3).attempts = 3
    ∧ ¬ (∀ i : ℕ,
          i < (send_message_advanced (fun _ => AttemptOutcome.focusFail) 3).pauses.length →
          (send_message_advanced (fun _ => AttemptOutcome.focusFail) 3).pauses.getD i false
            = true) := by
  constructor
  · rfl
  · intro hall
    have h0 : (send_message_advanced (fun _ => AttemptOutcome.focusFail) 3).pauses
        = [false, false, false] := rfl
    have := hall 0 (by rw [h0]; norm_num)
    rw [h0] at this
    simp at this

/-- C8 amended: a failed focus attempt does count toward `max_attempts` (with
a never-succeeding collaborator the loop runs exactly `max_attempts` times,
and never more), but the fixed inter-attempt pause follows an attempt exactly
when that attempt raised a transmission error — after a focus failure the
loop proceeds to the next attempt immediately, with no pause. -/
theorem C8_focus_fail_counts_without_pause (oracle : ℕ → AttemptOutcome)
    (max_attempts : ℕ) :
    ((∀ i, oracle i ≠ AttemptOutcome.success) →
        (send_message_advanced oracle max_attempts).attempts = max_attempts)
    ∧ (send_message_advanced oracle max_attempts).attempts ≤ max_attempts
    ∧ (∀ i : ℕ,
        i < (send_message_advanced oracle max_attempts).pauses.length →
        ((send_message_advanced oracle max_attempts).pauses.getD i false = true
          ↔ oracle (1 + i) = AttemptOutcome.sendError)) := by
  refine ⟨?_, ?_, ?_⟩
  · intro hfail
    exact (send_attempts_all_fail oracle hfail max_attempts 1).2
  · exact send_attempts_le oracle max_attempts 1
  · exact send_attempts_pauses oracle max_attempts 1

/-- Witness for C8 amended, at the all-focus-failures collaborator with
`max_attempts = 2` and the first executed attempt: the loop runs both
attempts and the pause after attempt 1 ran exactly when that attempt raised,
i.e. never. -/
theorem C8_focus_fail_counts_without_pause_witness :
    (send_message_advanced (fun _ => AttemptOutcome.focusFail) 2).attempts = 2
    ∧ (send_message_advanced (fun _ => AttemptOutcome.focusFail) 2).attempts ≤ 2
    ∧ ((send_message_advanced (fun _ => AttemptOutcome.focusFail) 2).pauses.getD 0 false = true
        ↔ (fun _ => AttemptOutcome.focusFail : ℕ → AttemptOutcome) (1 + 0)
            = AttemptOutcome.sendError) :=
  ⟨(C8_focus_fail_counts_without_pause (fun _ => AttemptOutcome.focusFail) 2).1
      (fun _ h => AttemptOutcome.noConfusion h),
   (C8_focus_fail_counts_without_pause (fun _ => AttemptOutcome.focusFail) 2).2.1,
   (C8_focus_fail_counts_without_pause (fun _ => AttemptOutcome.focusFail) 2).2.2 0
      (by norm_num [send_message_advanced, send_attempts])⟩
